import Mathlib

/-!
Verification development for MrClean (src/MrClean.py), an interactive tool
that finds and deletes Python virtual environments and `node_modules`
directories.

The filesystem is embedded as a finite tree of named files (with a byte
size) and named directories.  Each Python helper is translated to a Lean
function over that tree; the interactive navigation loop is embedded as a
function over a list of already-parsed user commands (the source lowercases
and strips each input line before dispatching, so commands are modelled as
an inductive type), driven by a fuel parameter that dominates the number of
loop iterations.  Deletion failures (shutil.rmtree raising) are modelled by
an oracle assigning to each entry either success or a failure cause.
-/

namespace MrClean

/-- A filesystem entry: a file with a byte size, or a directory with a list
of children.  Sibling names are assumed unique, as on a real filesystem. -/
inductive FSEntry where
  | file (nm : String) (size : Nat)
  | dir (nm : String) (children : List FSEntry)
deriving Repr

/-- Model of `path.name` in the source. -/
def FSEntry.name : FSEntry → String
  | .file n _ => n
  | .dir n _ => n

/-- Model of `path.is_dir()` in the source. -/
def FSEntry.isDir : FSEntry → Bool
  | .file _ _ => false
  | .dir _ _ => true

/-- The children of a directory (`iterdir`); a file has none. -/
def FSEntry.childrenOf : FSEntry → List FSEntry
  | .file _ _ => []
  | .dir _ cs => cs

mutual

/-- Total byte size of an entry: a file contributes its size, a directory
the sum of its descendants' file sizes. -/
def entrySize : FSEntry → Nat
  | .file _ s => s
  | .dir _ cs => sizeList cs

/-- Sum of `entrySize` over a list of entries. -/
def sizeList : List FSEntry → Nat
  | [] => 0
  | e :: es => entrySize e + sizeList es

end

/-- Model of `get_dir_size` (src lines 14-26): sums the sizes of all files anywhere
below the directory; directories themselves contribute 0.  Inaccessible
entries are skipped in the source; the model filesystem has no inaccessible
entries, so no oracle is needed here. -/
def get_dir_size : FSEntry → Nat
  | .file _ _ => 0
  | .dir _ cs => sizeList cs

/-- Resolve one relative path component: the child with the given name. -/
def lookupChild (cs : List FSEntry) (n : String) : Option FSEntry :=
  cs.find? (fun c => c.name == n)

/-- Model of `(path / a / b / ...).exists()`: follow the relative components from the
given entry; the path exists iff every component resolves. -/
def path_exists : FSEntry → List String → Bool
  | _, [] => true
  | .file _ _, _ :: _ => false
  | .dir _ cs, n :: rest =>
    match lookupChild cs n with
    | some c => path_exists c rest
    | none => false

/-- Model of `is_venv` (src lines 38-48): the entry is a directory and at least one
of the three marker paths `pyvenv.cfg`, `bin/activate`,
`Scripts/activate.bat` exists under it. -/
def is_venv (e : FSEntry) : Bool :=
  e.isDir &&
    (path_exists e ["pyvenv.cfg"] ||
     path_exists e ["bin", "activate"] ||
     path_exists e ["Scripts", "activate.bat"])

/-- Model of `is_node_modules` (src lines 51-53): a directory literally named
`node_modules`. -/
def is_node_modules (e : FSEntry) : Bool :=
  e.isDir && e.name == "node_modules"

/-- The two cleanable kinds (the `'venv'` / `'node_modules'` tags of the
source). -/
inductive Kind where
  | venv
  | node_modules
deriving Repr, DecidableEq

/-- The per-entry classification performed by `find_cleanable_in_dir`
(src lines 63-73): non-directories are skipped, `is_venv` is tested before
`is_node_modules`. -/
def classify (e : FSEntry) : Option Kind :=
  if !e.isDir then none
  else if is_venv e then some .venv
  else if is_node_modules e then some .node_modules
  else none

/-- An entry is cleanable iff `classify` tags it. -/
def is_cleanable (e : FSEntry) : Bool :=
  (classify e).isSome

/-- The classification loop of `find_cleanable_in_dir` over a child list:
each cleanable child yields `(entry, kind, size)`. -/
def find_cleanable_in_list : List FSEntry → List (FSEntry × Kind × Nat)
  | [] => []
  | e :: es =>
    match classify e with
    | some k => (e, k, get_dir_size e) :: find_cleanable_in_list es
    | none => find_cleanable_in_list es

/-- Model of `find_cleanable_in_dir` (src lines 56-77): the cleanable entries
directly inside a directory, in child order. -/
def find_cleanable_in_dir (e : FSEntry) : List (FSEntry × Kind × Nat) :=
  find_cleanable_in_list e.childrenOf

/-- Code-point-lexicographic strict order on character lists, the order
Python uses to compare path strings. -/
def charsLt : List Char → List Char → Bool
  | [], [] => false
  | [], _ :: _ => true
  | _ :: _, [] => false
  | a :: as, b :: bs =>
    if a.toNat < b.toNat then true
    else if b.toNat < a.toNat then false
    else charsLt as bs

/-- Non-strict name order. -/
def strLe (a b : String) : Bool := !charsLt b.data a.data

/-- Insertion step for sorting sibling directories by name (Python sorts
the `Path` objects; siblings share the parent path, so this is name
order). -/
def insertSorted (e : FSEntry) : List FSEntry → List FSEntry
  | [] => [e]
  | x :: xs => if strLe e.name x.name then e :: x :: xs else x :: insertSorted e xs

/-- Insertion sort by name, modelling `sorted(subdirs)`. -/
def sortByName : List FSEntry → List FSEntry
  | [] => []
  | x :: xs => insertSorted x (sortByName xs)

/-- Model of `get_subdirs` (src lines 80-89): the direct subdirectories that are
neither venvs nor `node_modules`, sorted. -/
def get_subdirs (e : FSEntry) : List FSEntry :=
  sortByName (e.childrenOf.filter (fun c => c.isDir && !is_venv c && !is_node_modules c))

mutual

/-- Model of `scan_dir` (src lines 100-120): returns immediately once `depth`
exceeds `m`; otherwise inspects the children. -/
def scan_dir (m : Nat) : FSEntry → Nat → Nat × Nat
  | e, d =>
    if d > m then (0, 0)
    else
      match e with
      | .file _ _ => (0, 0)
      | .dir _ cs => scan_children m cs d

/-- The child loop of `scan_dir`: files are skipped; a cleanable directory
is counted with its size and NOT descended into; any other directory is
scanned one level deeper. -/
def scan_children (m : Nat) : List FSEntry → Nat → Nat × Nat
  | [], _ => (0, 0)
  | e :: es, d =>
    let rest := scan_children m es d
    if !e.isDir then rest
    else if is_venv e || is_node_modules e then
      (rest.1 + 1, rest.2 + get_dir_size e)
    else
      let sub := scan_dir m e (d + 1)
      (rest.1 + sub.1, rest.2 + sub.2)

end

/-- Model of `scan_recursive` (src lines 92-123): the depth-capped preview scan,
started at depth 0.  The source's default cap is 10, which `navigate`
passes explicitly below. -/
def scan_recursive (m : Nat) (e : FSEntry) : Nat × Nat :=
  scan_dir m e 0

/-- Session statistics (`stats` dict of the source). -/
structure Stats where
  total_freed : Nat
  deleted_count : Nat
deriving Repr, DecidableEq

/-- Observable output events of the tool (only those the claims talk
about; pure rendering is omitted). -/
inductive Msg where
  | deleted (nm : String) (size : Nat)
  | deleteError (nm : String) (cause : String)
  | noMoreFolders
  | alreadyAtFirst
  | invalidNumber
  | invalidChoice
  | farewell
  | pathError
  | summaryDeleted (n : Nat)
  | summaryFreed (b : Nat)
deriving Repr, DecidableEq

/-- Deletion oracle: `none` means `shutil.rmtree` succeeds on the entry,
`some cause` that it raises with the given cause. -/
def Oracle := FSEntry → Option String

/-- The oracle on which every deletion succeeds. -/
def okAll : Oracle := fun _ => none

/-- Model of `delete_directory` (src lines 126-133): reports failure per path with
the underlying cause and returns the success flag. -/
def delete_directory (ok : Oracle) (e : FSEntry) : Bool × List Msg :=
  match ok e with
  | none => (true, [])
  | some cause => (false, [.deleteError e.name cause])

/-- Result of a batch-deletion loop: bytes freed, entries deleted,
output. -/
structure DelRes where
  freed : Nat
  cnt : Nat
  out : List Msg
deriving Repr, DecidableEq

/-- The shared batch-deletion loop over cleanable entries (src lines
145-149 in `wipe_all_cleanable` and 283-287 in the clean branch of
`navigate_directory`): attempt each deletion, and only on success add the
size, bump the deleted count, and report the deletion. -/
def delete_loop (ok : Oracle) : List (FSEntry × Kind × Nat) → DelRes
  | [] => ⟨0, 0, []⟩
  | (p, _, size) :: rest =>
    let d := delete_directory ok p
    let r := delete_loop ok rest
    if d.1 then ⟨size + r.freed, 1 + r.cnt, d.2 ++ .deleted p.name size :: r.out⟩
    else ⟨r.freed, r.cnt, d.2 ++ r.out⟩

/-- Result of wiping one entry. -/
structure WipeRes where
  tree : FSEntry
  freed : Nat
  cnt : Nat
  out : List Msg

/-- Result of wiping a child list. -/
structure WipeListRes where
  trees : List FSEntry
  freed : Nat
  cnt : Nat
  out : List Msg

mutual

/-- Model of `wipe_all_cleanable` (src lines 136-156): delete every cleanable entry
directly inside the directory, then recurse into every remaining navigable
subdirectory, at unbounded depth.  Returns the surviving tree, the bytes
freed, and the number of entries deleted (the source accumulates the count
into `stats` and returns the freed bytes). -/
def wipe_all_cleanable (ok : Oracle) : FSEntry → WipeRes
  | .file n s => ⟨.file n s, 0, 0, []⟩
  | .dir n cs =>
    let r := wipe_children ok cs
    ⟨.dir n r.trees, r.freed, r.cnt, r.out⟩

/-- Child pass of the wipe.  The source makes two passes over the children
(first deleting the cleanable ones, then recursing into the sorted
navigable subdirectories); the two passes touch disjoint children and the
accumulators are sums, so this single in-place pass produces the same tree,
freed total and deleted count. -/
def wipe_children (ok : Oracle) : List FSEntry → WipeListRes
  | [] => ⟨[], 0, 0, []⟩
  | e :: es =>
    let r := wipe_children ok es
    match classify e with
    | some _ =>
      let d := delete_directory ok e
      if d.1 then
        ⟨r.trees, get_dir_size e + r.freed, 1 + r.cnt,
          d.2 ++ .deleted e.name (get_dir_size e) :: r.out⟩
      else ⟨e :: r.trees, r.freed, r.cnt, d.2 ++ r.out⟩
    | none =>
      if e.isDir then
        let w := wipe_all_cleanable ok e
        ⟨w.tree :: r.trees, w.freed + r.freed, w.cnt + r.cnt, w.out ++ r.out⟩
      else ⟨e :: r.trees, r.freed, r.cnt, r.out⟩

end

/-- Whether the attempted deletion of a direct cleanable entry succeeds. -/
def delete_ok (ok : Oracle) (e : FSEntry) : Bool :=
  is_cleanable e && (ok e).isNone

/-- Result of the clean-only action. -/
structure CleanRes where
  tree : FSEntry
  freed : Nat
  cnt : Nat
  out : List Msg

/-- The clean branch of `navigate_directory` (src lines 280-291): run the
batch-deletion loop over the direct cleanable entries only; the surviving
children are exactly those not successfully deleted.  Subdirectories are
not recursed into. -/
def clean_current (ok : Oracle) : FSEntry → CleanRes
  | .file n s => ⟨.file n s, 0, 0, []⟩
  | .dir n cs =>
    let r := delete_loop ok (find_cleanable_in_list cs)
    ⟨.dir n (cs.filter (fun c => !delete_ok ok c)), r.freed, r.cnt, r.out⟩

/-- State change of the wipe branch (src lines 268-278): the tree is wiped,
`deleted_count` is bumped inside the wipe and the freed bytes are then
added to `total_freed`. -/
def apply_wipe (ok : Oracle) (t : FSEntry) (st : Stats) : FSEntry × Stats :=
  let r := wipe_all_cleanable ok t
  (r.tree, ⟨st.total_freed + r.freed, st.deleted_count + r.cnt⟩)

/-- State change of the clean branch (src lines 280-291). -/
def apply_clean (ok : Oracle) (t : FSEntry) (st : Stats) : FSEntry × Stats :=
  let r := clean_current ok t
  (r.tree, ⟨st.total_freed + r.freed, st.deleted_count + r.cnt⟩)

/-! ### Classification lemmas shared by the scenario proofs -/

/-- A directory holding a `pyvenv.cfg` marker classifies as a virtual
environment, whatever its name. -/
theorem classify_marker_dir (nm : String) (sz : Nat) :
    classify (.dir nm [.file "pyvenv.cfg" sz]) = some .venv := by
  simp [classify, is_venv, path_exists, lookupChild, List.find?, FSEntry.name, FSEntry.isDir]

/-- A `node_modules` directory holding a single ordinary file classifies as
a dependency cache. -/
theorem classify_nm_dir (sz : Nat) :
    classify (.dir "node_modules" [.file "lib" sz]) = some .node_modules := by
  simp [classify, is_venv, is_node_modules, path_exists, lookupChild, List.find?,
    FSEntry.name, FSEntry.isDir]

/-- A directory that is not named `node_modules` and whose only child is a
marker-holding directory not itself named `pyvenv.cfg` is navigable: it
classifies as neither venv nor dependency cache. -/
theorem classify_sub_none (nS nC : String) (sz : Nat)
    (h1 : nS ≠ "node_modules") (h2 : nC ≠ "pyvenv.cfg") :
    classify (.dir nS [.dir nC [.file "pyvenv.cfg" sz]]) = none := by
  have h2' : (nC == "pyvenv.cfg") = false := by simp [h2]
  have h1' : (nS == "node_modules") = false := by simp [h1]
  by_cases hb : nC = "bin"
  · subst hb
    simp [classify, is_venv, is_node_modules, path_exists, lookupChild, List.find?,
      FSEntry.name, FSEntry.isDir, h1', h2']
  · by_cases hsc : nC = "Scripts"
    · subst hsc
      simp [classify, is_venv, is_node_modules, path_exists, lookupChild, List.find?,
        FSEntry.name, FSEntry.isDir, h1', h2']
    · have hb' : (nC == "bin") = false := by simp [hb]
      have hsc' : (nC == "Scripts") = false := by simp [hsc]
      simp [classify, is_venv, is_node_modules, path_exists, lookupChild, List.find?,
        FSEntry.name, FSEntry.isDir, h1', h2', hb', hsc']

/-! ### C4: the venv classification -/

/-- C4: for every entry `D`, the classifier returns VirtualEnv iff `D` is a
directory and at least one of the three relative marker paths
`pyvenv.cfg`, `bin/activate`, `Scripts/activate.bat` exists under `D`,
regardless of `D`'s other contents. -/
theorem classifier_venv_iff (e : FSEntry) :
    classify e = some Kind.venv ↔
      (e.isDir = true ∧
        (path_exists e ["pyvenv.cfg"] = true ∨
         path_exists e ["bin", "activate"] = true ∨
         path_exists e ["Scripts", "activate.bat"] = true)) := by
  cases hd : e.isDir
  · simp [classify, hd]
  · simp only [classify, is_venv, hd, Bool.not_true, Bool.false_eq_true, if_false, true_and]
    by_cases hv : (path_exists e ["pyvenv.cfg"] ||
        path_exists e ["bin", "activate"] ||
        path_exists e ["Scripts", "activate.bat"]) = true
    · simp only [hv, if_true]
      have := hv
      simp only [Bool.or_eq_true] at this
      tauto
    · have hv' := Bool.eq_false_iff.mpr (fun h => hv h)
      simp only [Bool.true_and, hv', if_false]
      constructor
      · intro h
        split at h <;> simp_all
      · intro h
        exfalso
        apply hv
        rcases h with h | h | h <;> simp [h]

/-! ### C3: the node_modules classification -/

/-- C3 counterexample: a directory named exactly `node_modules` that also
contains a `pyvenv.cfg` marker is classified VirtualEnv, not
DependencyCache — `find_cleanable_in_dir` tests `is_venv` first. -/
theorem node_modules_misclassified :
    classify (.dir "node_modules" [.file "pyvenv.cfg" 1]) = some Kind.venv ∧
      classify (.dir "node_modules" [.file "pyvenv.cfg" 1]) ≠ some Kind.node_modules := by
  constructor
  · decide
  · decide

/-- C3 amended: a directory named exactly `node_modules` on which no venv
marker exists classifies as DependencyCache, and no entry with another
name ever classifies as DependencyCache. -/
theorem classifier_node_modules (e : FSEntry) :
    (e.isDir = true → e.name = "node_modules" → is_venv e = false →
        classify e = some Kind.node_modules) ∧
      (e.name ≠ "node_modules" → classify e ≠ some Kind.node_modules) := by
  constructor
  · intro hd hn hv
    simp [classify, hd, hv, is_node_modules, hn]
  · intro hn
    have : (e.name == "node_modules") = false := by simp [hn]
    simp [classify, is_node_modules, this]

/-- Witness for the amended C3 at concrete inputs. -/
theorem classifier_node_modules_witness :
    classify (.dir "node_modules" [.file "lib" 3]) = some Kind.node_modules ∧
      classify (.dir "modules" [.file "lib" 3]) ≠ some Kind.node_modules :=
  ⟨(classifier_node_modules _).1 rfl rfl (by decide),
   (classifier_node_modules _).2 (by decide)⟩

/-! ### C2: the scan does not descend into cleanable directories -/

/-- C2: a child directory the scan classifies as cleanable contributes
exactly one count and its own total size — independently of its children,
so a nested cleanable directory inside it is never separately counted —
and in particular a scan whose root holds one cleanable directory with an
arbitrary (possibly itself cleanable) single child returns exactly
`(1, size of the outer directory)`. -/
theorem scan_no_descend_into_cleanable :
    (∀ (m d : Nat) (nm : String) (cs rest : List FSEntry),
      (is_venv (.dir nm cs) || is_node_modules (.dir nm cs)) = true →
      scan_children m (FSEntry.dir nm cs :: rest) d =
        ((scan_children m rest d).1 + 1,
         (scan_children m rest d).2 + get_dir_size (.dir nm cs))) ∧
    (∀ (m : Nat) (nR : String) (inner : FSEntry),
      scan_recursive m (.dir nR [.dir "node_modules" [inner]]) =
        (1, get_dir_size (.dir "node_modules" [inner]))) := by
  constructor
  · intro m d nm cs rest h
    simp [scan_children, FSEntry.isDir, h]
  · intro m nR inner
    simp [scan_recursive, scan_dir, scan_children, FSEntry.isDir, FSEntry.childrenOf,
      is_node_modules, FSEntry.name, Nat.not_lt_zero]

/-- Witness for C2: the nested venv inside a `node_modules` directory is
not counted, and the size is the outer directory's size. -/
theorem scan_no_descend_witness :
    scan_children 10 [FSEntry.dir "node_modules" [.dir "v" [.file "pyvenv.cfg" 50]]] 0 =
      (1, 50) := by
  have h := scan_no_descend_into_cleanable.1 10 0 "node_modules"
    [FSEntry.dir "v" [.file "pyvenv.cfg" 50]] [] (by decide)
  simpa using h

/-! ### C8: the depth-0 scan inspects only the root's direct children -/

/-- C8: with `maxDepth = 0` the recursive scan returns `(0, 0)` on any
directory none of whose direct children is cleanable — no descent happens
beyond the root's direct inspection, whatever lies deeper. -/
theorem scan_depth_zero (nm : String) (cs : List FSEntry)
    (h : ∀ c ∈ cs, (is_venv c || is_node_modules c) = false) :
    scan_recursive 0 (.dir nm cs) = (0, 0) := by
  have hlist : ∀ ds : List FSEntry, (∀ c ∈ ds, (is_venv c || is_node_modules c) = false) →
      scan_children 0 ds 0 = (0, 0) := by
    intro ds
    induction ds with
    | nil => intro _; rfl
    | cons e es ih =>
      intro hall
      have he := hall e (List.mem_cons_self e es)
      have hes := ih (fun c hc => hall c (List.mem_cons_of_mem e hc))
      cases e with
      | file n s => simp [scan_children, FSEntry.isDir, hes]
      | dir n ccs =>
        simp [scan_children, FSEntry.isDir, he, hes, scan_dir]
  simp [scan_recursive, scan_dir, hlist cs h]

/-- Witness for C8: a depth-3 tree whose only cleanable directory sits two
levels down scans to `(0, 0)` at `maxDepth = 0`. -/
theorem scan_depth_zero_witness :
    (∀ c ∈ [FSEntry.dir "a" [.dir "b" [.dir "v" [.file "pyvenv.cfg" 5]]]],
        (is_venv c || is_node_modules c) = false) ∧
      scan_recursive 0 (.dir "R" [.dir "a" [.dir "b" [.dir "v" [.file "pyvenv.cfg" 5]]]]) =
        (0, 0) :=
  ⟨by decide, scan_depth_zero "R" _ (by decide)⟩

/-! ### C6: a failed deletion is reported, skipped, and does not abort -/

/-- C6: in the batch-deletion loop shared by wipe and clean, a failing
entry produces a per-path report carrying the underlying cause, the loop
continues with the remaining entries exactly as if the failing entry's
batch were split around it, and the failing entry contributes neither
freed bytes nor a deleted count. -/
theorem delete_loop_failure (ok : Oracle) (pre post : List (FSEntry × Kind × Nat))
    (p : FSEntry) (k : Kind) (sz : Nat) (cause : String)
    (h : ok p = some cause) :
    delete_loop ok (pre ++ (p, k, sz) :: post) =
      ⟨(delete_loop ok pre).freed + (delete_loop ok post).freed,
       (delete_loop ok pre).cnt + (delete_loop ok post).cnt,
       (delete_loop ok pre).out ++
         Msg.deleteError p.name cause :: (delete_loop ok post).out⟩ := by
  induction pre with
  | nil => simp [delete_loop, delete_directory, h]
  | cons hd tl ih =>
    obtain ⟨q, k2, s2⟩ := hd
    cases hq : ok q <;>
      simp [delete_loop, delete_directory, hq, ih, Nat.add_assoc]

/-- Witness for C6: with an oracle on which only the `node_modules` entry
fails, the loop deletes the two venvs around it, frees 150 bytes, counts 2
deletions, and reports the failure in between. -/
theorem delete_loop_failure_witness :
    delete_loop (fun e => if e.name == "node_modules" then some "in use" else none)
        [(.dir "A" [.file "pyvenv.cfg" 100], .venv, 100),
         (.dir "node_modules" [.file "lib" 200], .node_modules, 200),
         (.dir "C" [.file "pyvenv.cfg" 50], .venv, 50)] =
      ⟨150, 2, [.deleted "A" 100, .deleteError "node_modules" "in use", .deleted "C" 50]⟩ := by
  have h := delete_loop_failure
    (fun e => if e.name == "node_modules" then some "in use" else none)
    [(.dir "A" [.file "pyvenv.cfg" 100], .venv, 100)]
    [(.dir "C" [.file "pyvenv.cfg" 50], .venv, 50)]
    (.dir "node_modules" [.file "lib" 200]) .node_modules 200 "in use" (by decide)
  exact h

/-! ### C5: clean-only deletes exactly the direct cleanable entries -/

/-- On the all-successful oracle, the batch-deletion loop frees the sum of
the entries' sizes and counts every entry. -/
theorem delete_loop_okAll (l : List (FSEntry × Kind × Nat)) :
    (delete_loop okAll l).freed = (l.map (fun x => x.2.2)).sum ∧
      (delete_loop okAll l).cnt = l.length := by
  induction l with
  | nil => exact ⟨rfl, rfl⟩
  | cons hd tl ih =>
    obtain ⟨p, k, s⟩ := hd
    simp [delete_loop, delete_directory, okAll, ih.1, ih.2, Nat.add_comm]

/-- C5: the clean-only action removes exactly the direct cleanable
children — every other child, in particular every navigable subdirectory
with everything below it, is kept unchanged — and frees the sum of the
removed entries' sizes; on the reference node with direct entries A
(100 bytes) and B (200 bytes) and a nested entry C below subdirectory S,
it deletes only A and B, leaves S and C untouched, and adds 300 to
freed-bytes and 2 to deleted-count. -/
theorem clean_only_exact :
    (∀ (nm : String) (cs : List FSEntry),
      (clean_current okAll (.dir nm cs)).tree =
          .dir nm (cs.filter (fun c => !is_cleanable c)) ∧
        (clean_current okAll (.dir nm cs)).freed =
          ((find_cleanable_in_list cs).map (fun x => x.2.2)).sum) ∧
    (∀ (nR nA nS nC : String) (st : Stats), nS ≠ "node_modules" → nC ≠ "pyvenv.cfg" →
      apply_clean okAll
          (.dir nR [.dir nA [.file "pyvenv.cfg" 100],
                    .dir "node_modules" [.file "lib" 200],
                    .dir nS [.dir nC [.file "pyvenv.cfg" 50]]]) st =
        (.dir nR [.dir nS [.dir nC [.file "pyvenv.cfg" 50]]],
         ⟨st.total_freed + 300, st.deleted_count + 2⟩)) := by
  constructor
  · intro nm cs
    refine ⟨?_, ?_⟩
    · simp [clean_current, delete_ok, okAll]
    · simp [clean_current, (delete_loop_okAll _).1]
  · intro nR nA nS nC st h1 h2
    have hS := classify_sub_none nS nC 50 h1 h2
    have hcS : is_cleanable (.dir nS [.dir nC [.file "pyvenv.cfg" 50]]) = false := by
      simp [is_cleanable, hS]
    simp [apply_clean, clean_current, find_cleanable_in_list, classify_marker_dir,
      classify_nm_dir, hS, hcS, delete_loop, delete_directory, okAll, delete_ok,
      is_cleanable, get_dir_size, sizeList, entrySize]

/-- Witness for C5 at concrete names. -/
theorem clean_only_exact_witness :
    apply_clean okAll
        (.dir "R" [.dir "A" [.file "pyvenv.cfg" 100],
                   .dir "node_modules" [.file "lib" 200],
                   .dir "S" [.dir "C" [.file "pyvenv.cfg" 50]]]) ⟨0, 0⟩ =
      (.dir "R" [.dir "S" [.dir "C" [.file "pyvenv.cfg" 50]]], ⟨300, 2⟩) :=
  clean_only_exact.2 "R" "A" "S" "C" ⟨0, 0⟩ (by decide) (by decide)

/-! ### C1: wipe deletes everything below, at unbounded depth -/

/-- A chain of `k` nested navigable directories with a 50-byte venv at the
bottom, used to separate the unbounded wipe from the depth-capped scan. -/
def deep_chain : Nat → FSEntry
  | 0 => .dir "v" [.file "pyvenv.cfg" 50]
  | k + 1 => .dir "d" [deep_chain k]

/-- C1: on the reference node — direct cleanable entries A (venv,
100 bytes) and B (`node_modules`, 200 bytes) plus one navigable
subdirectory S holding a further venv C (50 bytes) — the wipe deletes all
three entries, adds 3 to the session's deleted-count and 350 to its
freed-bytes; and the wipe is not capped by the scan's `maxDepth`: it
deletes a venv buried 15 navigable levels deep, where the depth-10
recursive scan finds nothing. -/
theorem wipe_deletes_all :
    (∀ (nR nA nS nC : String) (st : Stats), nS ≠ "node_modules" → nC ≠ "pyvenv.cfg" →
      apply_wipe okAll
          (.dir nR [.dir nA [.file "pyvenv.cfg" 100],
                    .dir "node_modules" [.file "lib" 200],
                    .dir nS [.dir nC [.file "pyvenv.cfg" 50]]]) st =
        (.dir nR [.dir nS []],
         ⟨st.total_freed + 350, st.deleted_count + 3⟩)) ∧
    ((wipe_all_cleanable okAll (deep_chain 15)).freed = 50 ∧
      (wipe_all_cleanable okAll (deep_chain 15)).cnt = 1 ∧
      scan_recursive 10 (deep_chain 15) = (0, 0)) := by
  constructor
  · intro nR nA nS nC st h1 h2
    have hS := classify_sub_none nS nC 50 h1 h2
    simp [apply_wipe, wipe_all_cleanable, wipe_children, classify_marker_dir,
      classify_nm_dir, hS, delete_directory, okAll, get_dir_size, sizeList, entrySize,
      FSEntry.isDir]
  · refine ⟨by decide, by decide, by decide⟩

/-- Witness for C1 at concrete names. -/
theorem wipe_deletes_all_witness :
    apply_wipe okAll
        (.dir "R" [.dir "A" [.file "pyvenv.cfg" 100],
                   .dir "node_modules" [.file "lib" 200],
                   .dir "S" [.dir "C" [.file "pyvenv.cfg" 50]]]) ⟨0, 0⟩ =
      (.dir "R" [.dir "S" []], ⟨350, 3⟩) :=
  wipe_deletes_all.1 "R" "A" "S" "C" ⟨0, 0⟩ (by decide) (by decide)

/-! ### The interactive navigation loop (`navigate_directory`, src lines
159-325, and `main`, src lines 328-368)

User input is modelled as a list of already-parsed commands (the source
lowercases and strips each line before dispatching).  The loop is driven
by a fuel parameter; every iteration of either loop consumes at least one
command, so `2 * (number of commands) + 4` fuel is always sufficient, and
`main_model` supplies it.  Running out of input models `input()` raising
`EOFError`. -/

/-- A parsed user command. `junk` stands for any line that is none of the
known keys and not a digit string. -/
inductive Cmd where
  | q | s | u | n | p | r | w | c
  | num (k : Nat)
  | junk
deriving Repr, DecidableEq

/-- How a `navigate_directory` call ends: the `'s'`/`'u'`/`'next'`/`'prev'`
return values, the process-terminating `sys.exit(0)` of `'q'`, or an
uncaught `EOFError` from exhausted input. -/
inductive Outcome where
  | skip | up | next | prev | quit | eof
deriving Repr, DecidableEq

/-- Result of one `navigate_directory` call: its outcome, the directory
subtree as the call leaves it, the session statistics, the unconsumed
input, and the output events. -/
structure NavRet where
  outcome : Outcome
  tree : FSEntry
  stats : Stats
  rest : List Cmd
  out : List Msg
deriving Repr

/-- Model of `has_next` (src line 206): a sibling list and index are known, and the
index is not the last.  Python's `parent_subdirs and ...` makes an empty
list falsy. -/
def has_next (ps : Option (List FSEntry)) (ci : Option Nat) : Bool :=
  match ps, ci with
  | some l, some i => !l.isEmpty && decide (i < l.length - 1)
  | _, _ => false

/-- Model of `has_prev` (src line 207). -/
def has_prev (ps : Option (List FSEntry)) (ci : Option Nat) : Bool :=
  match ps, ci with
  | some l, some i => !l.isEmpty && decide (0 < i)
  | _, _ => false

/-- Prepend output events to a navigation result. -/
def withOut (ms : List Msg) (r : NavRet) : NavRet :=
  { r with out := ms ++ r.out }

/-- The sibling-index update of the parent's inner loop (src lines
300-317) for the child outcomes it does not propagate or break on:
`next` increments and clamps to the last index with a notice, `prev`
decrements and clamps to the first index with a notice, `skip` increments
without clamping (the loop condition then ends the walk). -/
def step_index (len idx : Nat) : Outcome → Option Nat × List Msg
  | .next =>
    if idx + 1 ≥ len then (some (len - 1), [.noMoreFolders])
    else (some (idx + 1), [])
  | .prev =>
    if idx = 0 then (some 0, [.alreadyAtFirst])
    else (some (idx - 1), [])
  | .skip => (some (idx + 1), [])
  | _ => (none, [])

/-- The child of `t` with the given name (`subdirs[subdir_idx]` names a
path; its contents are always read freshly from the current tree). -/
def findChild (t : FSEntry) (nm : String) : Option FSEntry :=
  lookupChild t.childrenOf nm

/-- Write back the subtree a child call returned.  Sibling names are
unique on a filesystem, so replacing by name is replacing the child. -/
def replaceChild (t : FSEntry) (nm : String) (c' : FSEntry) : FSEntry :=
  match t with
  | .file n s => .file n s
  | .dir n cs => .dir n (cs.map (fun c => if c.name == nm then c' else c))

/-- Result of the parent's inner sibling loop: either the loop finished
(`break` on `'up'`, or the index ran off the end) and the node's outer
loop resumes, or a process-terminating outcome propagates. -/
inductive SibRes where
  | done (t : FSEntry) (st : Stats) (rest : List Cmd) (out : List Msg)
  | halt (o : Outcome) (t : FSEntry) (st : Stats) (rest : List Cmd) (out : List Msg)
deriving Repr

/-- Prepend output events to a sibling-loop result. -/
def SibRes.withOut (ms : List Msg) : SibRes → SibRes
  | .done t st rest out => .done t st rest (ms ++ out)
  | .halt o t st rest out => .halt o t st rest (ms ++ out)

mutual

/-- The per-node loop of `navigate_directory` (src lines 170-325).
Arguments: fuel, current subtree, session stats, the cached
recursive-scan state (`has_recursive_items`, `recursive_count`,
`recursive_size`), the sibling context (`parent_subdirs`,
`current_idx`), whether this node is the session's starting directory
(`directory != start_path` in the source), and the remaining input. -/
def nav_loop (ok : Oracle) : Nat → FSEntry → Stats → Option Bool → Nat → Nat →
    Option (List FSEntry) → Option Nat → Bool → List Cmd → NavRet
  | 0, t, st, _, _, _, _, _, _, ins => ⟨.eof, t, st, ins, []⟩
  | Nat.succ fuel, t, st, hri, rc, rs, ps, ci, isStart, ins =>
    match ins with
    | [] => ⟨.eof, t, st, [], []⟩
    | cmd :: rest =>
      match cmd with
      | .q => ⟨.quit, t, st, rest, [.farewell]⟩
      | .s => ⟨.skip, t, st, rest, []⟩
      | .u =>
        if isStart then
          withOut [.invalidChoice] (nav_loop ok fuel t st hri rc rs ps ci isStart rest)
        else ⟨.up, t, st, rest, []⟩
      | .n =>
        if has_next ps ci then ⟨.next, t, st, rest, []⟩
        else withOut [.invalidChoice] (nav_loop ok fuel t st hri rc rs ps ci isStart rest)
      | .p =>
        if has_prev ps ci then ⟨.prev, t, st, rest, []⟩
        else withOut [.invalidChoice] (nav_loop ok fuel t st hri rc rs ps ci isStart rest)
      | .r =>
        if (get_subdirs t).isEmpty then
          withOut [.invalidChoice] (nav_loop ok fuel t st hri rc rs ps ci isStart rest)
        else
          let sc := scan_recursive 10 t
          match rest with
          | [] => ⟨.eof, t, st, [], []⟩
          | _ :: rest2 =>
            if sc.1 > 0 then nav_loop ok fuel t st (some true) sc.1 sc.2 ps ci isStart rest2
            else nav_loop ok fuel t st (some false) rc rs ps ci isStart rest2
      | .w =>
        if !(find_cleanable_in_dir t).isEmpty || hri == some true then
          let wr := wipe_all_cleanable ok t
          withOut wr.out
            (nav_loop ok fuel wr.tree
              ⟨st.total_freed + wr.freed, st.deleted_count + wr.cnt⟩
              none 0 0 ps ci isStart rest)
        else withOut [.invalidChoice] (nav_loop ok fuel t st hri rc rs ps ci isStart rest)
      | .c =>
        if !(find_cleanable_in_dir t).isEmpty then
          let cr := clean_current ok t
          withOut cr.out
            (nav_loop ok fuel cr.tree
              ⟨st.total_freed + cr.freed, st.deleted_count + cr.cnt⟩
              hri rc rs ps ci isStart rest)
        else withOut [.invalidChoice] (nav_loop ok fuel t st hri rc rs ps ci isStart rest)
      | .num k =>
        let subdirs := get_subdirs t
        if subdirs.isEmpty then
          withOut [.invalidChoice] (nav_loop ok fuel t st hri rc rs ps ci isStart rest)
        else if 1 ≤ k && k ≤ subdirs.length then
          match sib_loop ok fuel t st subdirs 0 rest with
          | .done t' st' rest' ms =>
            withOut ms (nav_loop ok fuel t' st' hri rc rs ps ci isStart rest')
          | .halt o t' st' rest' ms => ⟨o, t', st', rest', ms⟩
        else withOut [.invalidNumber] (nav_loop ok fuel t st hri rc rs ps ci isStart rest)
      | .junk =>
        withOut [.invalidChoice] (nav_loop ok fuel t st hri rc rs ps ci isStart rest)

/-- The inner sibling loop of the numeric branch (src lines 296-318):
visit the sibling at `idx`, write its subtree back, and react to its
outcome.  Note the source starts this loop at `subdir_idx = 0` whatever
number was entered. -/
def sib_loop (ok : Oracle) : Nat → FSEntry → Stats → List FSEntry → Nat → List Cmd → SibRes
  | 0, t, st, _, _, ins => .halt .eof t st ins []
  | Nat.succ fuel, t, st, sibs, idx, ins =>
    if h : idx < sibs.length then
      let nm := (sibs.get ⟨idx, h⟩).name
      match findChild t nm with
      | none =>
        -- unreachable: wipe and clean delete only cleanable entries, so a
        -- navigable child captured in `sibs` is never removed from `t`
        .done t st ins []
      | some child =>
        let r := nav_loop ok fuel child st none 0 0 (some sibs) (some idx) false ins
        let t' := replaceChild t nm r.tree
        match r.outcome with
        | .quit => .halt .quit t' r.stats r.rest r.out
        | .eof => .halt .eof t' r.stats r.rest r.out
        | .up => .done t' r.stats r.rest r.out
        | o =>
          match step_index sibs.length idx o with
          | (some j, ms) =>
            (sib_loop ok fuel t' r.stats sibs j r.rest).withOut (r.out ++ ms)
          | (none, ms) => .done t' r.stats r.rest (r.out ++ ms)
    else .done t st ins []

end

/-- Entry point of `navigate_directory`: the cached recursive-scan state starts
cleared (src lines 166-168). -/
def navigate (ok : Oracle) (fuel : Nat) (t : FSEntry) (st : Stats)
    (ps : Option (List FSEntry)) (ci : Option Nat) (isStart : Bool)
    (ins : List Cmd) : NavRet :=
  nav_loop ok fuel t st none 0 0 ps ci isStart ins

mutual

/-- Structural equality of entries, modelling equality of paths under a
common parent (`parent_subdirs.index(search_path)` in `main`). -/
def entryBeq : FSEntry → FSEntry → Bool
  | .file n s, .file n' s' => n == n' && s == s'
  | .dir n cs, .dir n' cs' => n == n' && listBeq cs cs'
  | .file _ _, .dir _ _ => false
  | .dir _ _, .file _ _ => false

/-- Pointwise `entryBeq` on lists. -/
def listBeq : List FSEntry → List FSEntry → Bool
  | [], [] => true
  | x :: xs, y :: ys => entryBeq x y && listBeq xs ys
  | _, _ => false

end

/-- Model of `list.index` returning an option (`main` catches `ValueError`). -/
def index_of (x : FSEntry) : List FSEntry → Option Nat
  | [] => none
  | y :: ys => if entryBeq y x then some 0 else (index_of x ys).map (fun i => i + 1)

/-- The sibling-context computation of `main` (src lines 349-359): when
the starting path has a parent directory (`none` models a filesystem
root), take the parent's navigable subdirectories and the start's index
among them; if the start is not among them, no sibling context. -/
def startSiblings (parent : Option FSEntry) (start : FSEntry) :
    Option (List FSEntry) × Option Nat :=
  match parent with
  | none => (none, none)
  | some par =>
    let sibs := get_subdirs par
    match index_of start sibs with
    | some i => (some sibs, some i)
    | none => (none, none)

/-- Model of `main` (src lines 328-368): exit code and output.  A missing starting
path exits 1 before any navigation; quitting exits 0 without the summary;
a navigation that returns normally is followed by the summary of deleted
directories and freed bytes, exiting 0.  (Exhausted input models an
uncaught `EOFError`, a nonzero exit.) -/
def main_model (pathPresent : Bool) (parent : Option FSEntry) (start : FSEntry)
    (ok : Oracle) (ins : List Cmd) : Nat × List Msg :=
  if !pathPresent then (1, [.pathError])
  else
    let pc := startSiblings parent start
    let r := navigate ok (2 * ins.length + 4) start ⟨0, 0⟩ pc.1 pc.2 true ins
    match r.outcome with
    | .quit => (0, r.out)
    | .eof => (1, r.out)
    | _ => (0, r.out ++ [.summaryDeleted r.stats.deleted_count,
                         .summaryFreed r.stats.total_freed])

/-! ### C7: quit is abrupt, normal completion prints the summary -/

/-- C7: entering `q` at any node — whatever the tree, statistics, scan
cache, sibling context or position — ends the walk at once with the
farewell only, consuming no further input; `main` turns that into exit
code 0 with no summary; and any session whose root walk returns normally
(not quit, not end-of-input) exits 0 with the summary of deleted-count
and freed-bytes appended after all other output. -/
theorem quit_vs_normal_end :
    (∀ (ok : Oracle) (fuel : Nat) t st hri rc rs ps ci isS (rest : List Cmd),
      nav_loop ok (fuel + 1) t st hri rc rs ps ci isS (Cmd.q :: rest) =
        ⟨.quit, t, st, rest, [.farewell]⟩) ∧
    (∀ parent t (ok : Oracle) (rest : List Cmd),
      main_model true parent t ok (Cmd.q :: rest) = (0, [.farewell])) ∧
    (∀ parent t (ok : Oracle) (ins : List Cmd) (r : NavRet),
      navigate ok (2 * ins.length + 4) t ⟨0, 0⟩ (startSiblings parent t).1
          (startSiblings parent t).2 true ins = r →
      r.outcome ≠ .quit → r.outcome ≠ .eof →
      main_model true parent t ok ins =
        (0, r.out ++ [.summaryDeleted r.stats.deleted_count,
                      .summaryFreed r.stats.total_freed])) := by
  refine ⟨?_, ?_, ?_⟩
  · intro ok fuel t st hri rc rs ps ci isS rest
    rfl
  · intro parent t ok rest
    rcases hpc : startSiblings parent t with ⟨ps, ci⟩
    have hN : 2 * (Cmd.q :: rest).length + 4 = 2 * rest.length + 5 + 1 := by
      simp [List.length_cons]
      omega
    simp [main_model, hpc, navigate, hN, nav_loop]
  · intro parent t ok ins r hr h1 h2
    rcases hpc : startSiblings parent t with ⟨ps, ci⟩
    rw [hpc] at hr
    simp only [main_model, Bool.not_true, if_false, hpc]
    rw [hr]
    cases ho : r.outcome <;> simp_all

/-- Witness for C7: skipping at the root of an empty tree prints the
empty summary with exit code 0. -/
theorem quit_vs_normal_end_witness :
    main_model true none (.dir "R" []) okAll [Cmd.s] =
      (0, [.summaryDeleted 0, .summaryFreed 0]) :=
  quit_vs_normal_end.2.2 none (.dir "R" []) okAll [Cmd.s]
    ⟨.skip, .dir "R" [], ⟨0, 0⟩, [], []⟩ rfl (by decide) (by decide)

/-! ### C9: sibling stepping clamps at the ends and never wraps -/

/-- C9: at sibling index 0 `p` is unavailable and dispatches as an invalid
choice with no state change; at the last index `n` is likewise
unavailable; the parent's clamp logic sends a `next` past the end to the
last index with the "no more folders" notice and a `prev` past the start
to index 0 with the "already at first" notice; and for an in-range index
the stepped index stays in `[0, len - 1]` — the list never wraps
around. -/
theorem sibling_clamp :
    (∀ l : List FSEntry, has_prev (some l) (some 0) = false) ∧
    (∀ l : List FSEntry, has_next (some l) (some (l.length - 1)) = false) ∧
    (∀ (ok : Oracle) fuel t st hri rc rs (l : List FSEntry) isS (rest : List Cmd),
      nav_loop ok (fuel + 1) t st hri rc rs (some l) (some 0) isS (Cmd.p :: rest) =
        withOut [.invalidChoice]
          (nav_loop ok fuel t st hri rc rs (some l) (some 0) isS rest)) ∧
    (∀ (ok : Oracle) fuel t st hri rc rs (l : List FSEntry) isS (rest : List Cmd),
      nav_loop ok (fuel + 1) t st hri rc rs (some l) (some (l.length - 1)) isS
          (Cmd.n :: rest) =
        withOut [.invalidChoice]
          (nav_loop ok fuel t st hri rc rs (some l) (some (l.length - 1)) isS rest)) ∧
    (∀ len idx : Nat, idx < len →
      (∀ j ms, step_index len idx .next = (some j, ms) → j < len) ∧
      (∀ j ms, step_index len idx .prev = (some j, ms) → j < len)) ∧
    (∀ len : Nat, step_index len (len - 1) .next = (some (len - 1), [.noMoreFolders])) ∧
    (∀ len : Nat, step_index len 0 .prev = (some 0, [.alreadyAtFirst])) := by
  refine ⟨?_, ?_, ?_, ?_, ?_, ?_, ?_⟩
  · intro l
    simp [has_prev]
  · intro l
    simp [has_next]
  · intro ok fuel t st hri rc rs l isS rest
    simp [nav_loop, has_prev]
  · intro ok fuel t st hri rc rs l isS rest
    simp [nav_loop, has_next]
  · intro len idx h
    constructor <;> intro j ms hst <;> simp only [step_index] at hst <;>
      split at hst <;> simp only [Prod.mk.injEq, Option.some.injEq] at hst <;> omega
  · intro len
    have h : len - 1 + 1 ≥ len := by omega
    simp [step_index, h]
  · intro len
    simp [step_index]

/-- Witness for C9: stepping `next` from index 1 of 3 lands at index 2,
still inside the range. -/
theorem sibling_clamp_witness :
    (1 : Nat) < 3 ∧ step_index 3 1 .next = (some 2, []) ∧ (2 : Nat) < 3 :=
  ⟨by decide, rfl, (sibling_clamp.2.2.2.2.1 3 1 (by decide)).1 2 [] rfl⟩

/-! ### C10: a sibling step at the starting directory ends the session -/

/-- C10: when the starting directory has a parent and is found among the
parent's navigable subdirectories, `main` hands that sibling list and
index to the root `navigate_directory` call, so `n`/`p` are offered
there whenever a next/previous index exists; entering an available `n`
or `p` at the starting directory makes the root call return, which `main`
treats as normal completion — the summary is printed and the process
exits 0 — instead of the session moving to a sibling. -/
theorem start_sibling_step_ends (parent start : FSEntry) (ok : Oracle)
    (rest : List Cmd) (i : Nat)
    (hidx : index_of start (get_subdirs parent) = some i) :
    startSiblings (some parent) start = (some (get_subdirs parent), some i) ∧
    (has_next (some (get_subdirs parent)) (some i) = true →
      main_model true (some parent) start ok (Cmd.n :: rest) =
        (0, [.summaryDeleted 0, .summaryFreed 0])) ∧
    (has_prev (some (get_subdirs parent)) (some i) = true →
      main_model true (some parent) start ok (Cmd.p :: rest) =
        (0, [.summaryDeleted 0, .summaryFreed 0])) := by
  have hpc : startSiblings (some parent) start = (some (get_subdirs parent), some i) := by
    simp [startSiblings, hidx]
  refine ⟨hpc, ?_, ?_⟩
  · intro hn
    have hN : 2 * (Cmd.n :: rest).length + 4 = 2 * rest.length + 5 + 1 := by
      simp [List.length_cons]
      omega
    simp [main_model, hpc, navigate, hN, nav_loop, hn]
  · intro hp
    have hN : 2 * (Cmd.p :: rest).length + 4 = 2 * rest.length + 5 + 1 := by
      simp [List.length_cons]
      omega
    simp [main_model, hpc, navigate, hN, nav_loop, hp]

/-- Witness for C10: starting at `a`, the first of three siblings under
`P`, entering `n` ends the session with the empty summary. -/
theorem start_sibling_step_ends_witness :
    main_model true (some (.dir "P" [.dir "a" [], .dir "b" [], .dir "c" []]))
        (.dir "a" []) okAll [Cmd.n] =
      (0, [.summaryDeleted 0, .summaryFreed 0]) :=
  (start_sibling_step_ends (.dir "P" [.dir "a" [], .dir "b" [], .dir "c" []])
    (.dir "a" []) okAll [] 0 (by decide)).2.1 (by decide)

end MrClean
